import Mathlib

/-!
Shallow embedding of the puzzle state machine of `app.py` (class
`JigsawPuzzleGame` together with the `/api/...` route handlers), the core of
the Jigsaw_game repository.  `jigsaw_puzzle.py` duplicates the same logic for
a pygame front end; where both are cited the Flask version is embedded.

Modelling conventions:
* machine integers and Python ints are `Int` (coordinates, scores) or `Nat`
  (indices, counters); Python floor division `//` on possibly negative
  operands is `Int.fdiv`;
* wall-clock instants (`time.time()`, `datetime.now()`) are integer seconds
  passed in explicitly as a `now : Int` argument; `timedelta(hours=2)` is
  `7200` seconds;
* randomness (`random.randint`, `random.shuffle`, `random.choice`) is passed
  in explicitly: jitter values as functions `Nat → Int × Int`, the shuffled
  tray-position list as a plain list argument, and `random.choice` as a
  natural number reduced modulo the candidate count;
* image data (`image_section`, base64 strings) carries no game logic and is
  omitted from the piece record; the `description` string of a level (unused
  by every operation) is likewise omitted;
* Flask `session` persistence (`save_progress` / `load_progress`) only copies
  fields that are already in the state, so it is the identity here.
-/

/-- One cell of `create_levels` in `app.py`: name, theme id, difficulty,
grid size `(columns, rows)` and base point value. -/
structure PuzzleLevel where
  name : String
  image_url : String
  difficulty : Nat
  grid_size : Nat × Nat
  points : Int
deriving DecidableEq, Repr

/-- The `PuzzlePiece` class of `app.py` (minus the opaque image handle). -/
structure PuzzlePiece where
  x : Int
  y : Int
  width : Int
  height : Int
  correct_x : Int
  correct_y : Int
  piece_id : Nat
  is_placed : Bool
  dragging : Bool
  hint_revealed : Bool
  rotation : Int
deriving DecidableEq, Repr

/-- `PuzzlePiece.is_near_correct_position` (tolerance default 30 in source;
passed explicitly here). -/
def PuzzlePiece.is_near_correct_position (p : PuzzlePiece) (tolerance : Int) : Bool :=
  decide (|p.x - p.correct_x| < tolerance) && decide (|p.y - p.correct_y| < tolerance)

/-- Mutable state of a `JigsawPuzzleGame` object (geometry constants are kept
as top-level definitions below; `self.levels` is immutable after `__init__`
and is the top-level `levels` list). -/
structure GameState where
  current_level : Nat
  total_score : Int
  level_start_time : Option Int
  puzzle_complete : Bool
  grid_cols : Nat
  grid_rows : Nat
  piece_width : Int
  piece_height : Int
  pieces : List PuzzlePiece
  hints_used : Nat
  last_hint_time : Option Int
deriving DecidableEq, Repr

/-- `self.screen_width = 1200`. -/
def screen_width : Int := 1200

/-- `self.screen_height = 800`. -/
def screen_height : Int := 800

/-- `self.puzzle_width = 600` (used in Nat divisions, so kept as `Nat`). -/
def puzzle_width : Nat := 600

/-- `self.puzzle_height = 450`. -/
def puzzle_height : Nat := 450

/-- `self.puzzle_x = 50`. -/
def puzzle_x : Int := 50

/-- `self.puzzle_y = 100`. -/
def puzzle_y : Int := 100

/-- `self.pieces_area_x = 700`. -/
def pieces_area_x : Int := 700

/-- `self.pieces_area_y = 100`. -/
def pieces_area_y : Int := 100

/-- `JigsawPuzzleGame.create_levels`. -/
def create_levels : List PuzzleLevel :=
  [ { name := "Cute Cat", image_url := "cat", difficulty := 1,
      grid_size := (3, 2), points := 100 },
    { name := "Mona Lisa", image_url := "monalisa", difficulty := 2,
      grid_size := (4, 3), points := 200 },
    { name := "Starry Night", image_url := "starry_night", difficulty := 3,
      grid_size := (4, 3), points := 300 },
    { name := "Sunflowers", image_url := "sunflower", difficulty := 2,
      grid_size := (3, 3), points := 250 },
    { name := "Mountain Lake", image_url := "landscape", difficulty := 3,
      grid_size := (5, 3), points := 350 },
    { name := "Abstract Art", image_url := "abstract", difficulty := 4,
      grid_size := (4, 4), points := 400 },
    { name := "City Skyline", image_url := "city", difficulty := 4,
      grid_size := (5, 4), points := 450 },
    { name := "Ocean Waves", image_url := "ocean", difficulty := 5,
      grid_size := (6, 4), points := 500 } ]

/-- `self.levels`, created once in `__init__` and never mutated. -/
def levels : List PuzzleLevel := create_levels

/-- Fallback level used to total the partial Python indexing
`self.levels[self.current_level]` (Python raises `IndexError` out of range;
every theorem that touches the index carries an in-range hypothesis). -/
def dLevel : PuzzleLevel :=
  { name := "", image_url := "", difficulty := 0, grid_size := (0, 0), points := 0 }

/-- Fallback piece used to total partial list indexing (all indexing below
happens at in-range indices). -/
def dPiece : PuzzlePiece :=
  { x := 0, y := 0, width := 0, height := 0, correct_x := 0, correct_y := 0,
    piece_id := 0, is_placed := false, dragging := false, hint_revealed := false,
    rotation := 0 }

/-- `JigsawPuzzleGame.create_pieces`: one piece per grid cell, row-major ids
`row * cols + col`, initial position `(0, 0)`, all flags `False`, target
`(puzzle_x + col * piece_width, puzzle_y + row * piece_height)`. -/
def create_pieces (cols rows : Nat) (pw ph : Int) : List PuzzlePiece :=
  (List.range rows).flatMap (fun row =>
    (List.range cols).map (fun col =>
      { x := 0, y := 0, width := pw, height := ph,
        correct_x := puzzle_x + Int.ofNat col * pw,
        correct_y := puzzle_y + Int.ofNat row * ph,
        piece_id := row * cols + col,
        is_placed := false, dragging := false, hint_revealed := false,
        rotation := 0 }))

/-- The `available_positions` grid built at the top of
`scramble_pieces`: 4 columns, `ceil(n/4) + 2` rows, cell `(row, col)` at
`(pieces_area_x + col*(pw+15), pieces_area_y + row*(ph+15))` plus the first
per-cell jitter (`random.randint(-20, 20)`, `random.randint(-10, 10)` in the
source, here the value `jit1 k` for cell number `k = row*4 + col`). -/
def basePositions (pw ph : Int) (n : Nat) (jit1 : Nat → Int × Int) : List (Int × Int) :=
  let cols : Nat := 4
  let rows : Nat := (n + cols - 1) / cols
  (List.range (rows + 2)).flatMap (fun row =>
    (List.range cols).map (fun col =>
      (pieces_area_x + Int.ofNat col * (pw + 15) + (jit1 (row * cols + col)).1,
       pieces_area_y + Int.ofNat row * (ph + 15) + (jit1 (row * cols + col)).2)))

/-- Body of the assignment loop of `scramble_pieces` for one unplaced piece:
take the shuffled position, add the second jitter (`random.randint(-30, 30)`,
`random.randint(-20, 20)`), then clamp into screen bounds. -/
def scrambleOne (p : PuzzlePiece) (pos : Int × Int) (jit : Int × Int) : PuzzlePiece :=
  let x0 := pos.1 + jit.1
  let y0 := pos.2 + jit.2
  let x1 := max (pieces_area_x - 50) (min (screen_width - p.width) x0)
  let y1 := max 50 (min (screen_height - p.height - 100) y0)
  { p with x := x1, y := y1 }

/-- The `for i, piece in enumerate(self.pieces)` loop of `scramble_pieces`:
piece `i` (if unplaced and `i` is in range of the shuffled list) is sent to
shuffled position `i` with its second jitter `jit2 i`. -/
def scrambleList (shuffled : List (Int × Int)) (jit2 : Nat → Int × Int) :
    Nat → List PuzzlePiece → List PuzzlePiece
  | _, [] => []
  | i, p :: ps =>
    (if p.is_placed = false ∧ i < shuffled.length then
      scrambleOne p (shuffled.getD i (0, 0)) (jit2 i)
    else p) :: scrambleList shuffled jit2 (i + 1) ps

/-- `JigsawPuzzleGame.scramble_pieces`, with the shuffled tray positions and
the second jitters passed in for the random choices. -/
def scramble_pieces (g : GameState) (shuffled : List (Int × Int))
    (jit2 : Nat → Int × Int) : GameState :=
  { g with pieces := scrambleList shuffled jit2 0 g.pieces }

/-- `JigsawPuzzleGame.calculate_level_score`.  `if not self.level_start_time`
is Python truthiness: `None` and `0` both yield the early `return 0`. -/
def calculate_level_score (g : GameState) (now : Int) : Int :=
  match g.level_start_time with
  | none => 0
  | some t =>
    if t = 0 then 0
    else
      let time_taken := now - t
      let base_score := (levels.getD g.current_level dLevel).points
      let time_bonus := max 0 (Int.fdiv base_score 2 - Int.fdiv time_taken 10)
      let hint_penalty := (g.hints_used : Int) * 20
      max 50 (base_score + time_bonus - hint_penalty)

/-- `JigsawPuzzleGame.complete_level`: add the level score to the total,
raise the completion flag, persist (identity here), return the score. -/
def complete_level (g : GameState) (now : Int) : GameState × Int :=
  let level_score := calculate_level_score g now
  ({ g with total_score := g.total_score + level_score, puzzle_complete := true },
   level_score)

/-- `JigsawPuzzleGame.can_use_hint`: no previous hint, or at least 2 hours
(7200 s) since the last one. -/
def can_use_hint (g : GameState) (now : Int) : Bool :=
  match g.last_hint_time with
  | none => true
  | some t => decide (7200 ≤ now - t)

/-- Indices of the pieces eligible for a hint, mirroring
`[p for p in self.pieces if not p.hint_revealed and not p.is_placed]`
(indices rather than aliased objects, so that the in-place mutation of the
chosen piece is an honest list update). -/
def eligIdxs (ps : List PuzzlePiece) : List Nat :=
  (List.range ps.length).filter (fun i =>
    (ps.getD i dPiece).hint_revealed = false ∧ (ps.getD i dPiece).is_placed = false)

/-- `JigsawPuzzleGame.use_hint`.  `k` stands for the `random.choice` draw:
the chosen eligible piece is the one at position `k % count` of the
candidate list. -/
def use_hint (g : GameState) (now : Int) (k : Nat) : GameState × Bool :=
  if can_use_hint g now = false then (g, false)
  else
    let idxs := eligIdxs g.pieces
    if idxs.isEmpty then (g, false)
    else
      let j := idxs.getD (k % idxs.length) 0
      let piece := g.pieces.getD j dPiece
      ({ g with pieces := g.pieces.set j { piece with hint_revealed := true },
                hints_used := g.hints_used + 1,
                last_hint_time := some now }, true)

/-- Result of the `/api/move_piece` route: `ok` is the plain
`{'success': True, 'game_state': ...}` response (returned both when no
movable piece matches and when a piece was moved without snapping);
`placedMore` / `placedDone` are the two `piece_placed: True` responses,
the latter carrying `level_score`. -/
inductive MoveResp where
  | ok : MoveResp
  | placedMore : MoveResp
  | placedDone (level_score : Int) : MoveResp
deriving DecidableEq, Repr

/-- The `for piece in game.pieces` loop of the `/api/move_piece` route: find
the first piece with the requested id that is not placed, set its position to
`(x, y)`, snap it to its target if `is_near_correct_position()` and mark it
placed (the returned Bool says whether a snap happened); all other pieces are
untouched. -/
def movePiecesAux (pid : Nat) (x y : Int) : List PuzzlePiece → List PuzzlePiece × Bool
  | [] => ([], false)
  | p :: ps =>
    if p.piece_id = pid ∧ p.is_placed = false then
      let moved := { p with x := x, y := y }
      if moved.is_near_correct_position 30 then
        ({ moved with x := p.correct_x, y := p.correct_y, is_placed := true } :: ps, true)
      else
        (moved :: ps, false)
    else
      let r := movePiecesAux pid x y ps
      (p :: r.1, r.2)

/-- The `/api/move_piece` route handler (valid-payload path): move the
addressed piece, and if it snapped re-check board completion and run
`complete_level` when every piece is placed. -/
def move_piece (g : GameState) (pid : Nat) (x y : Int) (now : Int) :
    GameState × MoveResp :=
  let r := movePiecesAux pid x y g.pieces
  let g' := { g with pieces := r.1 }
  if r.2 then
    if r.1.all (fun p => p.is_placed) then
      let c := complete_level g' now
      (c.1, MoveResp.placedDone c.2)
    else
      (g', MoveResp.placedMore)
  else
    (g', MoveResp.ok)

/-- The part of `JigsawPuzzleGame.load_level` that precedes
`scramble_pieces`: in-range level index assumed checked by the caller; grid
geometry recomputed, a fresh unplaced piece set created, the completion flag
cleared and the level timer restarted (`time.time()` passed as `now`).  The
level index field itself is not touched (the source mutates
`self.current_level` separately, before calling `load_level`). -/
def load_level_base (g : GameState) (now : Int) (level_index : Nat) : GameState :=
  let lv := levels.getD level_index dLevel
  let pw : Int := (puzzle_width / lv.grid_size.1 : Nat)
  let ph : Int := (puzzle_height / lv.grid_size.2 : Nat)
  { g with grid_cols := lv.grid_size.1, grid_rows := lv.grid_size.2,
           piece_width := pw, piece_height := ph,
           pieces := create_pieces lv.grid_size.1 lv.grid_size.2 pw ph,
           puzzle_complete := false,
           level_start_time := some now }

/-- `JigsawPuzzleGame.load_level`: fails (returning `False`, state untouched)
for an out-of-range index, otherwise rebuilds and scrambles the piece set and
returns `True`. -/
def load_level (g : GameState) (shuffled : List (Int × Int))
    (jit2 : Nat → Int × Int) (now : Int) (level_index : Nat) : GameState × Bool :=
  if levels.length ≤ level_index then (g, false)
  else (scramble_pieces (load_level_base g now level_index) shuffled jit2, true)

/-- `JigsawPuzzleGame.next_level`: strictly below the last level index,
advance by one, reset the hint counter and reload; otherwise return `False`
with nothing changed. -/
def next_level (g : GameState) (shuffled : List (Int × Int))
    (jit2 : Nat → Int × Int) (now : Int) : GameState × Bool :=
  if g.current_level < levels.length - 1 then
    let g1 := { g with current_level := g.current_level + 1, hints_used := 0 }
    load_level g1 shuffled jit2 now g1.current_level
  else (g, false)

/-- Result of the `/api/use_hint` route: `granted` is the
`{'success': True, 'message': 'Hint revealed!'}` response, `notAvailable`
the single `{'success': False, 'message': 'Hint not available yet!'}`
response used for every failed hint request. -/
inductive HintResp where
  | granted : HintResp
  | notAvailable : HintResp
deriving DecidableEq, Repr

/-- The `/api/use_hint` route handler. -/
def use_hint_route (g : GameState) (now : Int) (k : Nat) : GameState × HintResp :=
  let r := use_hint g now k
  (r.1, if r.2 then HintResp.granted else HintResp.notAvailable)

/-- The `/api/next_level` route handler (Bool: `success` response versus the
`'Level not complete'` 400 error).  With the puzzle complete: below the last
level delegate to `JigsawPuzzleGame.next_level`; at the last level restart by
setting the level index to 0 and reloading — without touching
`hints_used`. -/
def next_level_route (g : GameState) (shuffled : List (Int × Int))
    (jit2 : Nat → Int × Int) (now : Int) : GameState × Bool :=
  if g.puzzle_complete then
    if g.current_level < levels.length - 1 then
      ((next_level g shuffled jit2 now).1, true)
    else
      let g1 := { g with current_level := 0 }
      ((load_level g1 shuffled jit2 now 0).1, true)
  else (g, false)

/-- The field state established by `JigsawPuzzleGame.__init__` before
`load_progress` / `load_level` run: empty piece list, zeroed counters. -/
def initState : GameState :=
  { current_level := 0, total_score := 0, level_start_time := none,
    puzzle_complete := false, grid_cols := 0, grid_rows := 0,
    piece_width := 0, piece_height := 0, pieces := [], hints_used := 0,
    last_hint_time := none }

/-- A freshly constructed game: `__init__` restores `current_level`,
`total_score`, `hints_used`, `last_hint_time` from the session (arbitrary
here, except that a session written by `save_progress` always holds an
in-range level index) and then runs `load_level(self.current_level)`. -/
def Init (g : GameState) : Prop :=
  ∃ (g0 : GameState) (shuffled : List (Int × Int)) (jit2 : Nat → Int × Int) (now : Int),
    g0.current_level < levels.length ∧
    g = (load_level g0 shuffled jit2 now g0.current_level).1

/-- One command against the game state, with every random draw and clock
reading universally quantified: the operations of the claims (move piece,
hint, scramble, load level, advance level — both the method and the
restart-capable route handler). -/
inductive Step : GameState → GameState → Prop where
  | move (g : GameState) (pid : Nat) (x y now : Int) :
      Step g (move_piece g pid x y now).1
  | hint (g : GameState) (now : Int) (k : Nat) :
      Step g (use_hint g now k).1
  | scramble (g : GameState) (shuffled : List (Int × Int)) (jit2 : Nat → Int × Int) :
      Step g (scramble_pieces g shuffled jit2)
  | load (g : GameState) (shuffled : List (Int × Int)) (jit2 : Nat → Int × Int)
      (now : Int) (level_index : Nat) :
      Step g (load_level g shuffled jit2 now level_index).1
  | next (g : GameState) (shuffled : List (Int × Int)) (jit2 : Nat → Int × Int)
      (now : Int) :
      Step g (next_level g shuffled jit2 now).1
  | nextRoute (g : GameState) (shuffled : List (Int × Int)) (jit2 : Nat → Int × Int)
      (now : Int) :
      Step g (next_level_route g shuffled jit2 now).1

/-- States reachable from a freshly constructed game by the operations. -/
def Reachable (g : GameState) : Prop :=
  ∃ g0, Init g0 ∧ Relation.ReflTransGen Step g0 g

/-- The operations that act within the current level (they never replace the
piece collection wholesale, unlike a level load). -/
inductive StepInLevel : GameState → GameState → Prop where
  | move (g : GameState) (pid : Nat) (x y now : Int) :
      StepInLevel g (move_piece g pid x y now).1
  | hint (g : GameState) (now : Int) (k : Nat) :
      StepInLevel g (use_hint g now k).1
  | scramble (g : GameState) (shuffled : List (Int × Int)) (jit2 : Nat → Int × Int) :
      StepInLevel g (scramble_pieces g shuffled jit2)

/-- Snap invariant: a placed piece sits exactly on its target. -/
def SnapInv (g : GameState) : Prop :=
  ∀ p ∈ g.pieces, p.is_placed = true → p.x = p.correct_x ∧ p.y = p.correct_y

/-- Completion invariant: the board flag agrees with all pieces placed. -/
def CompleteInv (g : GameState) : Prop :=
  g.puzzle_complete = true ↔ ∀ p ∈ g.pieces, p.is_placed = true

/-- Frame property of an in-level operation on placed pieces: same number of
pieces, and every placed piece is left byte-for-byte unchanged (position and
all flags). -/
def PlacedFrame (g g' : GameState) : Prop :=
  g'.pieces.length = g.pieces.length ∧
  ∀ (i : Nat) (hi : i < g.pieces.length) (hi' : i < g'.pieces.length),
    (g.pieces.get ⟨i, hi⟩).is_placed = true →
    g'.pieces.get ⟨i, hi'⟩ = g.pieces.get ⟨i, hi⟩

/-! ### Helper lemmas: branch characterizations of the operations -/

theorem calculate_level_score_pieces (g : GameState) (ps : List PuzzlePiece) (now : Int) :
    calculate_level_score { g with pieces := ps } now = calculate_level_score g now := rfl

theorem move_piece_of_noSnap (g : GameState) (pid : Nat) (x y now : Int)
    (h : (movePiecesAux pid x y g.pieces).2 = false) :
    move_piece g pid x y now =
      ({ g with pieces := (movePiecesAux pid x y g.pieces).1 }, MoveResp.ok) := by
  simp [move_piece, h]

theorem move_piece_of_snap_more (g : GameState) (pid : Nat) (x y now : Int)
    (h : (movePiecesAux pid x y g.pieces).2 = true)
    (h2 : ((movePiecesAux pid x y g.pieces).1.all (fun p => p.is_placed)) = false) :
    move_piece g pid x y now =
      ({ g with pieces := (movePiecesAux pid x y g.pieces).1 }, MoveResp.placedMore) := by
  simp [move_piece, h, h2]

theorem move_piece_of_snap_done (g : GameState) (pid : Nat) (x y now : Int)
    (h : (movePiecesAux pid x y g.pieces).2 = true)
    (h2 : ((movePiecesAux pid x y g.pieces).1.all (fun p => p.is_placed)) = true) :
    move_piece g pid x y now =
      ({ g with pieces := (movePiecesAux pid x y g.pieces).1,
                total_score := g.total_score + calculate_level_score g now,
                puzzle_complete := true },
       MoveResp.placedDone (calculate_level_score g now)) := by
  simp [move_piece, h, h2, complete_level, calculate_level_score_pieces]

theorem use_hint_of_blocked (g : GameState) (now : Int) (k : Nat)
    (h : can_use_hint g now = false) : use_hint g now k = (g, false) := by
  simp [use_hint, h]

theorem use_hint_of_noElig (g : GameState) (now : Int) (k : Nat)
    (h : eligIdxs g.pieces = []) : use_hint g now k = (g, false) := by
  by_cases hc : can_use_hint g now = false
  · simp [use_hint, hc]
  · simp [use_hint, hc, h]

theorem use_hint_of_success (g : GameState) (now : Int) (k : Nat)
    (h : can_use_hint g now = true) (h2 : eligIdxs g.pieces ≠ []) :
    use_hint g now k =
      (let j := (eligIdxs g.pieces).getD (k % (eligIdxs g.pieces).length) 0
       { g with pieces := g.pieces.set j
                  { g.pieces.getD j dPiece with hint_revealed := true },
                hints_used := g.hints_used + 1,
                last_hint_time := some now }, true) := by
  have hc : ¬ can_use_hint g now = false := by simp [h]
  have he : (eligIdxs g.pieces).isEmpty = false := by
    simpa [List.isEmpty_iff] using h2
  simp [use_hint, hc, he]

/-! ### Helper lemmas: the move loop -/

theorem movePiecesAux_length (pid : Nat) (x y : Int) (ps : List PuzzlePiece) :
    (movePiecesAux pid x y ps).1.length = ps.length := by
  induction ps with
  | nil => simp [movePiecesAux]
  | cons p ps ih =>
    by_cases hc : p.piece_id = pid ∧ p.is_placed = false
    · simp only [movePiecesAux, if_pos hc]
      by_cases hn :
        ({ p with x := x, y := y } : PuzzlePiece).is_near_correct_position 30 = true
      · simp [if_pos hn]
      · simp [if_neg hn]
    · simp only [movePiecesAux, if_neg hc]
      simp [ih]

theorem movePiecesAux_map_placed (pid : Nat) (x y : Int) (ps : List PuzzlePiece)
    (h : (movePiecesAux pid x y ps).2 = false) :
    (movePiecesAux pid x y ps).1.map (fun p => p.is_placed) =
      ps.map (fun p => p.is_placed) := by
  induction ps with
  | nil => simp [movePiecesAux]
  | cons p ps ih =>
    by_cases hc : p.piece_id = pid ∧ p.is_placed = false
    · simp only [movePiecesAux, if_pos hc] at h ⊢
      by_cases hn :
        ({ p with x := x, y := y } : PuzzlePiece).is_near_correct_position 30 = true
      · simp [if_pos hn] at h
      · simp only [if_neg hn, List.map_cons]
    · simp only [movePiecesAux, if_neg hc] at h ⊢
      simp only [List.map_cons]
      rw [ih h]

theorem movePiecesAux_true_unplaced (pid : Nat) (x y : Int) (ps : List PuzzlePiece)
    (h : (movePiecesAux pid x y ps).2 = true) :
    ∃ p ∈ ps, p.is_placed = false := by
  induction ps with
  | nil => simp [movePiecesAux] at h
  | cons p ps ih =>
    by_cases hc : p.piece_id = pid ∧ p.is_placed = false
    · exact ⟨p, List.mem_cons_self p ps, hc.2⟩
    · simp only [movePiecesAux, if_neg hc] at h
      obtain ⟨q, hq, hq2⟩ := ih h
      exact ⟨q, List.mem_cons_of_mem p hq, hq2⟩

theorem movePiecesAux_of_noMatch (pid : Nat) (x y : Int) (ps : List PuzzlePiece)
    (h : ∀ p ∈ ps, p.piece_id = pid → p.is_placed = true) :
    movePiecesAux pid x y ps = (ps, false) := by
  induction ps with
  | nil => simp [movePiecesAux]
  | cons p ps ih =>
    have hc : ¬ (p.piece_id = pid ∧ p.is_placed = false) := by
      rintro ⟨h1, h2⟩
      have := h p (List.mem_cons_self p ps) h1
      simp [this] at h2
    have ih' := ih (fun q hq => h q (List.mem_cons_of_mem p hq))
    simp [movePiecesAux, hc, ih']

theorem movePiecesAux_snapInv (pid : Nat) (x y : Int) (ps : List PuzzlePiece)
    (h : ∀ p ∈ ps, p.is_placed = true → p.x = p.correct_x ∧ p.y = p.correct_y) :
    ∀ q ∈ (movePiecesAux pid x y ps).1,
      q.is_placed = true → q.x = q.correct_x ∧ q.y = q.correct_y := by
  induction ps with
  | nil => simp [movePiecesAux]
  | cons p ps ih =>
    by_cases hc : p.piece_id = pid ∧ p.is_placed = false
    · by_cases hn :
        ({ p with x := x, y := y } : PuzzlePiece).is_near_correct_position 30 = true
      · intro q hq
        simp only [movePiecesAux, if_pos hc, if_pos hn, List.mem_cons] at hq
        rcases hq with hq | hq
        · intro _; subst hq; exact ⟨rfl, rfl⟩
        · exact h q (List.mem_cons_of_mem p hq)
      · intro q hq
        simp only [movePiecesAux, if_pos hc, if_neg hn, List.mem_cons] at hq
        rcases hq with hq | hq
        · intro hpl
          subst hq
          simp at hpl
          exact absurd hpl (by simp [hc.2])
        · exact h q (List.mem_cons_of_mem p hq)
    · intro q hq
      simp only [movePiecesAux, if_neg hc, List.mem_cons] at hq
      rcases hq with hq | hq
      · subst hq; exact h q (List.mem_cons_self q ps)
      · exact ih (fun r hr => h r (List.mem_cons_of_mem p hr)) q hq

theorem movePiecesAux_frame (pid : Nat) (x y : Int) (ps : List PuzzlePiece)
    (i : Nat) (h : (ps.getD i dPiece).is_placed = true) :
    (movePiecesAux pid x y ps).1.getD i dPiece = ps.getD i dPiece := by
  induction ps generalizing i with
  | nil => simp [movePiecesAux]
  | cons p ps ih =>
    by_cases hc : p.piece_id = pid ∧ p.is_placed = false
    · cases i with
      | zero =>
        simp only [List.getD_cons_zero] at h
        exact absurd h (by simp [hc.2])
      | succ i =>
        simp only [movePiecesAux, if_pos hc]
        by_cases hn :
          ({ p with x := x, y := y } : PuzzlePiece).is_near_correct_position 30 = true
        · simp [if_pos hn]
        · simp [if_neg hn]
    · cases i with
      | zero => simp [movePiecesAux, if_neg hc]
      | succ i =>
        simp only [List.getD_cons_succ] at h
        simp only [movePiecesAux, if_neg hc, List.getD_cons_succ]
        have := ih i h
        simpa using this

/-! ### Helper lemmas: scrambling -/

theorem scrambleOne_is_placed (p : PuzzlePiece) (pos jit : Int × Int) :
    (scrambleOne p pos jit).is_placed = p.is_placed := rfl

theorem scrambleList_length (shuffled : List (Int × Int)) (jit2 : Nat → Int × Int) :
    ∀ (i : Nat) (ps : List PuzzlePiece),
    (scrambleList shuffled jit2 i ps).length = ps.length := by
  intro i ps
  induction ps generalizing i with
  | nil => simp [scrambleList]
  | cons p ps ih => simp [scrambleList, ih]

theorem scrambleList_map_placed (shuffled : List (Int × Int)) (jit2 : Nat → Int × Int) :
    ∀ (i : Nat) (ps : List PuzzlePiece),
    (scrambleList shuffled jit2 i ps).map (fun p => p.is_placed) =
      ps.map (fun p => p.is_placed) := by
  intro i ps
  induction ps generalizing i with
  | nil => simp [scrambleList]
  | cons p ps ih =>
    simp only [scrambleList, List.map_cons, ih]
    by_cases hc : p.is_placed = false ∧ i < shuffled.length
    · simp [if_pos hc, scrambleOne_is_placed]
    · simp [if_neg hc]

theorem scrambleList_frame (shuffled : List (Int × Int)) (jit2 : Nat → Int × Int) :
    ∀ (i j : Nat) (ps : List PuzzlePiece),
    (ps.getD j dPiece).is_placed = true →
    (scrambleList shuffled jit2 i ps).getD j dPiece = ps.getD j dPiece := by
  intro i j ps
  induction ps generalizing i j with
  | nil => simp [scrambleList]
  | cons p ps ih =>
    intro h
    cases j with
    | zero =>
      simp only [List.getD_cons_zero] at h
      have hc : ¬ (p.is_placed = false ∧ i < shuffled.length) := by
        rintro ⟨h1, _⟩; simp [h] at h1
      simp [scrambleList, if_neg hc]
    | succ j =>
      simp only [List.getD_cons_succ] at h
      simp only [scrambleList, List.getD_cons_succ]
      exact ih (i + 1) j h

theorem scrambleList_covered (shuffled : List (Int × Int)) (jit2 : Nat → Int × Int) :
    ∀ (i : Nat) (ps : List PuzzlePiece),
    (∀ q ∈ ps, q.is_placed = false) →
    i + ps.length ≤ shuffled.length →
    ∀ p ∈ scrambleList shuffled jit2 i ps,
      ∃ q ∈ ps, ∃ m, p = scrambleOne q (shuffled.getD m (0, 0)) (jit2 m) := by
  intro i ps
  induction ps generalizing i with
  | nil => simp [scrambleList]
  | cons q qs ih =>
    intro hall hlen p hp
    have hi : i < shuffled.length := by
      simp only [List.length_cons] at hlen
      omega
    have hc : q.is_placed = false ∧ i < shuffled.length :=
      ⟨hall q (List.mem_cons_self q qs), hi⟩
    simp only [scrambleList, if_pos hc, List.mem_cons] at hp
    rcases hp with hp | hp
    · exact ⟨q, List.mem_cons_self q qs, i, hp⟩
    · have hlen' : i + 1 + qs.length ≤ shuffled.length := by
        simp only [List.length_cons] at hlen
        omega
      obtain ⟨q', hq', m, hm⟩ :=
        ih (i + 1) (fun r hr => hall r (List.mem_cons_of_mem q hr)) hlen' p hp
      exact ⟨q', List.mem_cons_of_mem q hq', m, hm⟩

theorem scrambleOne_x (p : PuzzlePiece) (pos jit : Int × Int) :
    (scrambleOne p pos jit).x =
      max (pieces_area_x - 50) (min (screen_width - p.width) (pos.1 + jit.1)) := rfl

theorem scrambleOne_y (p : PuzzlePiece) (pos jit : Int × Int) :
    (scrambleOne p pos jit).y =
      max 50 (min (screen_height - p.height - 100) (pos.2 + jit.2)) := rfl

theorem scrambleOne_bounds (p : PuzzlePiece) (pos jit : Int × Int)
    (hw1 : 0 < p.width) (hw2 : p.width ≤ 550) (hh : p.height ≤ 650)
    (hcx : p.correct_x + p.width ≤ 650) :
    pieces_area_x - 50 ≤ (scrambleOne p pos jit).x ∧
    (scrambleOne p pos jit).x ≤ screen_width - (scrambleOne p pos jit).width ∧
    50 ≤ (scrambleOne p pos jit).y ∧
    (scrambleOne p pos jit).y ≤ screen_height - (scrambleOne p pos jit).height - 100 ∧
    ¬((scrambleOne p pos jit).x = (scrambleOne p pos jit).correct_x ∧
      (scrambleOne p pos jit).y = (scrambleOne p pos jit).correct_y) := by
  have hq : (scrambleOne p pos jit).width = p.width ∧
      (scrambleOne p pos jit).height = p.height ∧
      (scrambleOne p pos jit).correct_x = p.correct_x := ⟨rfl, rfl, rfl⟩
  rw [scrambleOne_x, scrambleOne_y, hq.1, hq.2.1, hq.2.2]
  simp only [pieces_area_x, screen_width, screen_height]
  refine ⟨le_max_left _ _, ?_, le_max_left _ _, ?_, ?_⟩
  · exact max_le (by omega) (le_trans (min_le_left _ _) (le_refl _))
  · exact max_le (by omega) (le_trans (min_le_left _ _) (le_refl _))
  · rintro ⟨hx, _⟩
    have h1 : (650 : Int) ≤ max (700 - 50) (min (1200 - p.width) (pos.1 + jit.1)) := by
      have := le_max_left (α := Int) (700 - 50) (min (1200 - p.width) (pos.1 + jit.1))
      omega
    rw [hx] at h1
    omega

/-! ### Helper lemmas: hints -/

theorem eligIdxs_mem (ps : List PuzzlePiece) (j : Nat) (h : j ∈ eligIdxs ps) :
    j < ps.length ∧ (ps.getD j dPiece).hint_revealed = false ∧
      (ps.getD j dPiece).is_placed = false := by
  simp only [eligIdxs, List.mem_filter, List.mem_range, decide_eq_true_eq] at h
  exact ⟨h.1, h.2.1, h.2.2⟩

theorem eligIdxs_choice_mem (ps : List PuzzlePiece) (k : Nat)
    (h : eligIdxs ps ≠ []) :
    (eligIdxs ps).getD (k % (eligIdxs ps).length) 0 ∈ eligIdxs ps := by
  have hlen : 0 < (eligIdxs ps).length := List.length_pos.mpr h
  have hk : k % (eligIdxs ps).length < (eligIdxs ps).length := Nat.mod_lt _ hlen
  rw [List.getD_eq_getElem?_getD, List.getElem?_eq_getElem hk]
  exact List.getElem_mem _

/-! ### Helper lemmas: generic list facts -/

theorem getD_mem_of_lt {α : Type} (l : List α) (j : Nat) (d : α) (h : j < l.length) :
    l.getD j d ∈ l := by
  rw [List.getD_eq_getElem?_getD, List.getElem?_eq_getElem h]
  exact List.getElem_mem _

theorem set_mem_self {α : Type} (l : List α) (j : Nat) (v : α) (h : j < l.length) :
    v ∈ l.set j v :=
  List.mem_set l j h v

theorem allPlaced_iff_of_map_eq {l l' : List PuzzlePiece}
    (h : l.map (fun p => p.is_placed) = l'.map (fun p => p.is_placed)) :
    (∀ p ∈ l, p.is_placed = true) ↔ (∀ p ∈ l', p.is_placed = true) := by
  constructor
  · intro ha q hq
    have hm : q.is_placed ∈ l'.map (fun p => p.is_placed) :=
      List.mem_map_of_mem _ hq
    rw [← h] at hm
    obtain ⟨r, hr, he⟩ := List.mem_map.mp hm
    rw [← he]
    exact ha r hr
  · intro ha q hq
    have hm : q.is_placed ∈ l.map (fun p => p.is_placed) :=
      List.mem_map_of_mem _ hq
    rw [h] at hm
    obtain ⟨r, hr, he⟩ := List.mem_map.mp hm
    rw [← he]
    exact ha r hr

theorem length_flatMap_const {α β : Type} (l : List α) (f : α → List β) (k : Nat)
    (h : ∀ a, (f a).length = k) : (l.flatMap f).length = l.length * k := by
  induction l with
  | nil => simp
  | cons a l ih =>
    simp only [List.flatMap_cons, List.length_append, h a, ih, List.length_cons,
      Nat.succ_mul]
    omega

/-! ### Helper lemmas: the per-level fresh piece sets -/

/-- The fresh piece list built by `load_level` for a given level index
(it depends only on the level data). -/
def piecesFor (level_index : Nat) : List PuzzlePiece :=
  let lv := levels.getD level_index dLevel
  create_pieces lv.grid_size.1 lv.grid_size.2
    ((puzzle_width / lv.grid_size.1 : Nat)) ((puzzle_height / lv.grid_size.2 : Nat))

theorem load_level_base_pieces (g : GameState) (now : Int) (level_index : Nat) :
    (load_level_base g now level_index).pieces = piecesFor level_index := rfl

theorem piecesFor_facts : ∀ level_index, level_index < 8 →
    piecesFor level_index ≠ [] ∧
    ∀ p ∈ piecesFor level_index,
      p.is_placed = false ∧ p.hint_revealed = false ∧ 0 < p.width ∧ p.width ≤ 550 ∧
      p.height ≤ 650 ∧ p.correct_x + p.width ≤ 650 := by decide

theorem levels_length : levels.length = 8 := rfl

theorem basePositions_length (pw ph : Int) (n : Nat) (jit1 : Nat → Int × Int) :
    (basePositions pw ph n jit1).length = ((n + 4 - 1) / 4 + 2) * 4 := by
  unfold basePositions
  rw [length_flatMap_const _ _ 4 (fun row => by simp)]
  simp

theorem le_basePositions_length (pw ph : Int) (n : Nat) (jit1 : Nat → Int × Int) :
    n ≤ (basePositions pw ph n jit1).length := by
  rw [basePositions_length]
  omega

/-! ### Helper lemmas: loading -/

theorem load_level_of_success (g : GameState) (shuffled : List (Int × Int))
    (jit2 : Nat → Int × Int) (now : Int) (level_index : Nat)
    (h : level_index < levels.length) :
    load_level g shuffled jit2 now level_index =
      (scramble_pieces (load_level_base g now level_index) shuffled jit2, true) := by
  rw [load_level, if_neg (Nat.not_le.mpr h)]

theorem load_level_of_fail (g : GameState) (shuffled : List (Int × Int))
    (jit2 : Nat → Int × Int) (now : Int) (level_index : Nat)
    (h : levels.length ≤ level_index) :
    load_level g shuffled jit2 now level_index = (g, false) := by
  rw [load_level, if_pos h]

/-! ### Invariant preservation -/

theorem scrambleList_snapInv (shuffled : List (Int × Int)) (jit2 : Nat → Int × Int) :
    ∀ (i : Nat) (ps : List PuzzlePiece),
    (∀ p ∈ ps, p.is_placed = true → p.x = p.correct_x ∧ p.y = p.correct_y) →
    ∀ q ∈ scrambleList shuffled jit2 i ps,
      q.is_placed = true → q.x = q.correct_x ∧ q.y = q.correct_y := by
  intro i ps
  induction ps generalizing i with
  | nil => simp [scrambleList]
  | cons p ps ih =>
    intro h q hq
    simp only [scrambleList, List.mem_cons] at hq
    rcases hq with hq | hq
    · by_cases hc : p.is_placed = false ∧ i < shuffled.length
      · rw [if_pos hc] at hq
        subst hq
        rw [scrambleOne_is_placed]
        intro hpl
        exact absurd hpl (by simp [hc.1])
      · rw [if_neg hc] at hq
        subst hq
        exact h q (List.mem_cons_self q ps)
    · exact ih (i + 1) (fun r hr => h r (List.mem_cons_of_mem p hr)) q hq

theorem snapInv_move (g : GameState) (pid : Nat) (x y now : Int) (hS : SnapInv g) :
    SnapInv (move_piece g pid x y now).1 := by
  have key : ∀ q ∈ (movePiecesAux pid x y g.pieces).1,
      q.is_placed = true → q.x = q.correct_x ∧ q.y = q.correct_y :=
    movePiecesAux_snapInv pid x y g.pieces hS
  cases hb : (movePiecesAux pid x y g.pieces).2 with
  | false =>
    rw [move_piece_of_noSnap g pid x y now hb]
    exact key
  | true =>
    cases hall : ((movePiecesAux pid x y g.pieces).1.all (fun p => p.is_placed)) with
    | false =>
      rw [move_piece_of_snap_more g pid x y now hb hall]
      exact key
    | true =>
      rw [move_piece_of_snap_done g pid x y now hb hall]
      exact key

theorem completeInv_move (g : GameState) (pid : Nat) (x y now : Int)
    (hC : CompleteInv g) : CompleteInv (move_piece g pid x y now).1 := by
  cases hb : (movePiecesAux pid x y g.pieces).2 with
  | false =>
    rw [move_piece_of_noSnap g pid x y now hb]
    have hmap := movePiecesAux_map_placed pid x y g.pieces hb
    exact Iff.trans hC (allPlaced_iff_of_map_eq hmap).symm
  | true =>
    have hex : ∃ p ∈ g.pieces, p.is_placed = false :=
      movePiecesAux_true_unplaced pid x y g.pieces hb
    have hcmp : g.puzzle_complete = false := by
      by_contra hcontra
      have hT : g.puzzle_complete = true := by
        cases hgp : g.puzzle_complete
        · exact absurd hgp hcontra
        · rfl
      obtain ⟨p, hp, hpf⟩ := hex
      have := hC.mp hT p hp
      rw [this] at hpf
      cases hpf
    cases hall : ((movePiecesAux pid x y g.pieces).1.all (fun p => p.is_placed)) with
    | false =>
      rw [move_piece_of_snap_more g pid x y now hb hall]
      constructor
      · intro hcontr
        rw [hcmp] at hcontr
        cases hcontr
      · intro hforall
        have : ((movePiecesAux pid x y g.pieces).1.all (fun p => p.is_placed)) = true :=
          List.all_eq_true.mpr (fun p hp => hforall p hp)
        rw [hall] at this
        cases this
    | true =>
      rw [move_piece_of_snap_done g pid x y now hb hall]
      constructor
      · intro _
        exact fun p hp => List.all_eq_true.mp hall p hp
      · intro _
        rfl

theorem snapInv_hint (g : GameState) (now : Int) (k : Nat) (hS : SnapInv g) :
    SnapInv (use_hint g now k).1 := by
  by_cases hc : can_use_hint g now = false
  · rw [use_hint_of_blocked g now k hc]; exact hS
  · by_cases he : eligIdxs g.pieces = []
    · rw [use_hint_of_noElig g now k he]; exact hS
    · have hc' : can_use_hint g now = true := by
        cases h : can_use_hint g now
        · exact absurd h hc
        · rfl
      rw [use_hint_of_success g now k hc' he]
      intro q hq
      have hj := eligIdxs_mem g.pieces _ (eligIdxs_choice_mem g.pieces k he)
      rcases List.mem_or_eq_of_mem_set hq with hq | hq
      · exact hS q hq
      · subst hq
        intro hpl
        have : ({ g.pieces.getD _ dPiece with
            hint_revealed := true } : PuzzlePiece).is_placed = false := hj.2.2
        rw [hpl] at this
        cases this

theorem completeInv_hint (g : GameState) (now : Int) (k : Nat) (hC : CompleteInv g) :
    CompleteInv (use_hint g now k).1 := by
  by_cases hc : can_use_hint g now = false
  · rw [use_hint_of_blocked g now k hc]; exact hC
  · by_cases he : eligIdxs g.pieces = []
    · rw [use_hint_of_noElig g now k he]; exact hC
    · have hc' : can_use_hint g now = true := by
        cases h : can_use_hint g now
        · exact absurd h hc
        · rfl
      rw [use_hint_of_success g now k hc' he]
      have hj := eligIdxs_mem g.pieces _ (eligIdxs_choice_mem g.pieces k he)
      have hcmp : g.puzzle_complete = false := by
        by_contra hcontra
        have hT : g.puzzle_complete = true := by
          cases hgp : g.puzzle_complete
          · exact absurd hgp hcontra
          · rfl
        have := hC.mp hT _ (getD_mem_of_lt g.pieces _ dPiece hj.1)
        rw [this] at hj
        cases hj.2.2
      constructor
      · intro hcontr
        rw [hcmp] at hcontr
        cases hcontr
      · intro hforall
        have hv := hforall _ (set_mem_self g.pieces _ _ hj.1)
        have : ({ g.pieces.getD _ dPiece with
            hint_revealed := true } : PuzzlePiece).is_placed = false := hj.2.2
        rw [hv] at this
        cases this

theorem snapInv_scramble (g : GameState) (shuffled : List (Int × Int))
    (jit2 : Nat → Int × Int) (hS : SnapInv g) :
    SnapInv (scramble_pieces g shuffled jit2) :=
  scrambleList_snapInv shuffled jit2 0 g.pieces hS

theorem completeInv_scramble (g : GameState) (shuffled : List (Int × Int))
    (jit2 : Nat → Int × Int) (hC : CompleteInv g) :
    CompleteInv (scramble_pieces g shuffled jit2) :=
  Iff.trans hC (allPlaced_iff_of_map_eq (scrambleList_map_placed shuffled jit2 0 g.pieces)).symm

theorem inv_load_success (g : GameState) (shuffled : List (Int × Int))
    (jit2 : Nat → Int × Int) (now : Int) (level_index : Nat)
    (h : level_index < levels.length) :
    SnapInv (load_level g shuffled jit2 now level_index).1 ∧
    CompleteInv (load_level g shuffled jit2 now level_index).1 := by
  rw [load_level_of_success g shuffled jit2 now level_index h]
  have h8 : level_index < 8 := by rw [levels_length] at h; exact h
  have hfacts := piecesFor_facts level_index h8
  constructor
  · intro q hq
    have : ∀ p ∈ piecesFor level_index,
        p.is_placed = true → p.x = p.correct_x ∧ p.y = p.correct_y := by
      intro p hp hpl
      have := (hfacts.2 p hp).1
      rw [hpl] at this
      cases this
    exact scrambleList_snapInv shuffled jit2 0 (piecesFor level_index) this q hq
  · have hmap :=
      scrambleList_map_placed shuffled jit2 0 (piecesFor level_index)
    constructor
    · intro hcontr
      cases hcontr
    · intro hforall
      have hall : ∀ p ∈ piecesFor level_index, p.is_placed = true :=
        (allPlaced_iff_of_map_eq hmap).mp hforall
      obtain ⟨p0, hp0⟩ := List.exists_mem_of_ne_nil _ hfacts.1
      have h1 := (hfacts.2 p0 hp0).1
      have h2 := hall p0 hp0
      rw [h2] at h1
      cases h1

theorem inv_load (g : GameState) (shuffled : List (Int × Int))
    (jit2 : Nat → Int × Int) (now : Int) (level_index : Nat)
    (hS : SnapInv g) (hC : CompleteInv g) :
    SnapInv (load_level g shuffled jit2 now level_index).1 ∧
    CompleteInv (load_level g shuffled jit2 now level_index).1 := by
  by_cases h : levels.length ≤ level_index
  · rw [load_level_of_fail g shuffled jit2 now level_index h]
    exact ⟨hS, hC⟩
  · exact inv_load_success g shuffled jit2 now level_index (Nat.not_le.mp h)

theorem inv_next (g : GameState) (shuffled : List (Int × Int))
    (jit2 : Nat → Int × Int) (now : Int)
    (hS : SnapInv g) (hC : CompleteInv g) :
    SnapInv (next_level g shuffled jit2 now).1 ∧
    CompleteInv (next_level g shuffled jit2 now).1 := by
  rw [next_level]
  by_cases h : g.current_level < levels.length - 1
  · rw [if_pos h]
    exact inv_load_success _ shuffled jit2 now _
      (show g.current_level + 1 < levels.length by
        rw [levels_length] at h ⊢; omega)
  · rw [if_neg h]
    exact ⟨hS, hC⟩

theorem inv_next_route (g : GameState) (shuffled : List (Int × Int))
    (jit2 : Nat → Int × Int) (now : Int)
    (hS : SnapInv g) (hC : CompleteInv g) :
    SnapInv (next_level_route g shuffled jit2 now).1 ∧
    CompleteInv (next_level_route g shuffled jit2 now).1 := by
  rw [next_level_route]
  by_cases hcmp : g.puzzle_complete = true
  · rw [if_pos hcmp]
    by_cases h : g.current_level < levels.length - 1
    · rw [if_pos h]
      exact inv_next g shuffled jit2 now hS hC
    · rw [if_neg h]
      exact inv_load_success _ shuffled jit2 now 0 (by rw [levels_length]; omega)
  · rw [if_neg hcmp]
    exact ⟨hS, hC⟩

theorem step_preserves_inv (g g' : GameState) (h : Step g g')
    (hS : SnapInv g) (hC : CompleteInv g) : SnapInv g' ∧ CompleteInv g' := by
  cases h with
  | move pid x y now =>
    exact ⟨snapInv_move g pid x y now hS, completeInv_move g pid x y now hC⟩
  | hint now k =>
    exact ⟨snapInv_hint g now k hS, completeInv_hint g now k hC⟩
  | scramble shuffled jit2 =>
    exact ⟨snapInv_scramble g shuffled jit2 hS, completeInv_scramble g shuffled jit2 hC⟩
  | load shuffled jit2 now level_index =>
    exact inv_load g shuffled jit2 now level_index hS hC
  | next shuffled jit2 now =>
    exact inv_next g shuffled jit2 now hS hC
  | nextRoute shuffled jit2 now =>
    exact inv_next_route g shuffled jit2 now hS hC

theorem init_inv (g : GameState) (h : Init g) : SnapInv g ∧ CompleteInv g := by
  obtain ⟨g0, shuffled, jit2, now, hlt, rfl⟩ := h
  exact inv_load_success g0 shuffled jit2 now g0.current_level hlt

theorem reachable_inv (g : GameState) (h : Reachable g) :
    SnapInv g ∧ CompleteInv g := by
  obtain ⟨g0, h0, hsteps⟩ := h
  induction hsteps with
  | refl => exact init_inv g0 h0
  | tail hab hbc ih => exact step_preserves_inv _ _ hbc ih.1 ih.2

/-! ### Frame of in-level operations on placed pieces -/

theorem get_eq_getD {α : Type} (l : List α) (i : Nat) (hi : i < l.length) (d : α) :
    l.get ⟨i, hi⟩ = l.getD i d := by
  rw [List.getD_eq_getElem?_getD, List.getElem?_eq_getElem hi]
  rfl

theorem move_piece_pieces (g : GameState) (pid : Nat) (x y now : Int) :
    (move_piece g pid x y now).1.pieces = (movePiecesAux pid x y g.pieces).1 := by
  cases hb : (movePiecesAux pid x y g.pieces).2 with
  | false => rw [move_piece_of_noSnap g pid x y now hb]
  | true =>
    cases hall : ((movePiecesAux pid x y g.pieces).1.all (fun p => p.is_placed)) with
    | false => rw [move_piece_of_snap_more g pid x y now hb hall]
    | true => rw [move_piece_of_snap_done g pid x y now hb hall]

theorem placedFrame_refl (g : GameState) : PlacedFrame g g :=
  ⟨rfl, fun _ _ _ _ => rfl⟩

theorem placedFrame_of_getD (g : GameState) (ps : List PuzzlePiece)
    (hlen : ps.length = g.pieces.length)
    (h : ∀ i : Nat, (g.pieces.getD i dPiece).is_placed = true →
      ps.getD i dPiece = g.pieces.getD i dPiece) :
    PlacedFrame g { g with pieces := ps } := by
  refine ⟨hlen, ?_⟩
  intro i hi hi' hplaced
  have h1 : g.pieces.get ⟨i, hi⟩ = g.pieces.getD i dPiece := get_eq_getD _ _ _ _
  have h2 : ps.get ⟨i, hi'⟩ = ps.getD i dPiece := get_eq_getD _ _ _ _
  rw [h1, h2]
  exact h i (by rw [← h1]; exact hplaced)

theorem placedFrame_move (g : GameState) (pid : Nat) (x y now : Int) :
    PlacedFrame g (move_piece g pid x y now).1 := by
  have hp := move_piece_pieces g pid x y now
  have hmain : PlacedFrame g { g with pieces := (movePiecesAux pid x y g.pieces).1 } :=
    placedFrame_of_getD g _ (movePiecesAux_length pid x y g.pieces)
      (fun i hi => movePiecesAux_frame pid x y g.pieces i hi)
  refine ⟨by rw [hp]; exact hmain.1, ?_⟩
  intro i hi hi' hplaced
  have hi2 : i < ({ g with pieces := (movePiecesAux pid x y g.pieces).1 } :
      GameState).pieces.length := by
    simpa [movePiecesAux_length] using hi
  have := hmain.2 i hi hi2 hplaced
  calc (move_piece g pid x y now).1.pieces.get ⟨i, hi'⟩
      = (move_piece g pid x y now).1.pieces.getD i dPiece := get_eq_getD _ _ _ _
    _ = (movePiecesAux pid x y g.pieces).1.getD i dPiece := by rw [hp]
    _ = g.pieces.get ⟨i, hi⟩ := by
        rw [← get_eq_getD _ _ hi2 dPiece] at *
        exact this

theorem placedFrame_hint (g : GameState) (now : Int) (k : Nat) :
    PlacedFrame g (use_hint g now k).1 := by
  by_cases hc : can_use_hint g now = false
  · rw [use_hint_of_blocked g now k hc]
    exact placedFrame_refl g
  · by_cases he : eligIdxs g.pieces = []
    · rw [use_hint_of_noElig g now k he]
      exact placedFrame_refl g
    · have hc' : can_use_hint g now = true := by
        cases h : can_use_hint g now
        · exact absurd h hc
        · rfl
      rw [use_hint_of_success g now k hc' he]
      have hj := eligIdxs_mem g.pieces _ (eligIdxs_choice_mem g.pieces k he)
      refine placedFrame_of_getD g _ (by simp) ?_
      intro i hplaced
      have hne : (eligIdxs g.pieces).getD
          (k % (eligIdxs g.pieces).length) 0 ≠ i := by
        intro heq
        rw [heq] at hj
        rw [hj.2.2] at hplaced
        cases hplaced
      rw [List.getD_eq_getElem?_getD, List.getElem?_set_ne hne,
        ← List.getD_eq_getElem?_getD]

theorem placedFrame_scramble (g : GameState) (shuffled : List (Int × Int))
    (jit2 : Nat → Int × Int) :
    PlacedFrame g (scramble_pieces g shuffled jit2) :=
  placedFrame_of_getD g _ (scrambleList_length shuffled jit2 0 g.pieces)
    (fun i hi => scrambleList_frame shuffled jit2 0 i g.pieces hi)

theorem stepInLevel_placedFrame (g g' : GameState) (h : StepInLevel g g') :
    PlacedFrame g g' := by
  cases h with
  | move pid x y now => exact placedFrame_move g pid x y now
  | hint now k => exact placedFrame_hint g now k
  | scramble shuffled jit2 => exact placedFrame_scramble g shuffled jit2

/-! ### Helper lemmas: level advance -/

theorem allFlag_iff_of_map_eq {l l' : List PuzzlePiece} (b : Bool)
    (h : l.map (fun p => p.is_placed) = l'.map (fun p => p.is_placed)) :
    (∀ p ∈ l, p.is_placed = b) ↔ (∀ p ∈ l', p.is_placed = b) := by
  constructor
  · intro ha q hq
    have hm : q.is_placed ∈ l'.map (fun p => p.is_placed) :=
      List.mem_map_of_mem _ hq
    rw [← h] at hm
    obtain ⟨r, hr, he⟩ := List.mem_map.mp hm
    rw [← he]
    exact ha r hr
  · intro ha q hq
    have hm : q.is_placed ∈ l.map (fun p => p.is_placed) :=
      List.mem_map_of_mem _ hq
    rw [h] at hm
    obtain ⟨r, hr, he⟩ := List.mem_map.mp hm
    rw [← he]
    exact ha r hr

theorem scrambled_piecesFor_unplaced (shuffled : List (Int × Int))
    (jit2 : Nat → Int × Int) (level_index : Nat) (h : level_index < 8) :
    ∀ p ∈ scrambleList shuffled jit2 0 (piecesFor level_index),
      p.is_placed = false := by
  have hmap := scrambleList_map_placed shuffled jit2 0 (piecesFor level_index)
  exact (allFlag_iff_of_map_eq false hmap).mpr
    (fun p hp => ((piecesFor_facts level_index h).2 p hp).1)

theorem next_level_at_last (g : GameState) (shuffled : List (Int × Int))
    (jit2 : Nat → Int × Int) (now : Int)
    (h : ¬ g.current_level < levels.length - 1) :
    next_level g shuffled jit2 now = (g, false) := by
  rw [next_level, if_neg h]

theorem next_level_advance (g : GameState) (shuffled : List (Int × Int))
    (jit2 : Nat → Int × Int) (now : Int)
    (h : g.current_level < levels.length - 1) :
    next_level g shuffled jit2 now =
      (scramble_pieces
        (load_level_base { g with current_level := g.current_level + 1, hints_used := 0 }
          now (g.current_level + 1)) shuffled jit2, true) := by
  rw [next_level, if_pos h,
    load_level_of_success _ shuffled jit2 now _
      (show g.current_level + 1 < levels.length by rw [levels_length] at h ⊢; omega)]

/-! ### Concrete states used by witnesses and counterexamples -/

/-- Degenerate random draws: every jitter is `(0, 0)` (a legal value of
`random.randint(-20, 20)` and friends). -/
def zeroJit : Nat → Int × Int := fun _ => (0, 0)

/-- A concrete legal outcome of the shuffle for level 0 (6 pieces of size
200 × 225): the identity permutation of the tray grid with zero jitter. -/
def shuffled0 : List (Int × Int) := basePositions 200 225 6 zeroJit

/-- A concrete freshly loaded game: level 0 loaded at time 5 with the
degenerate random draws above. -/
def gC : GameState := (load_level initState shuffled0 zeroJit 5 0).1

theorem gC_reachable : Reachable gC :=
  ⟨gC, ⟨initState, shuffled0, zeroJit, 5, by decide, rfl⟩,
    Relation.ReflTransGen.refl⟩

/-- State whose only piece is already hint-revealed (no eligible piece) and
with no hint timestamp (cooldown allows a hint). -/
def gNoElig : GameState :=
  { initState with pieces := [{ dPiece with hint_revealed := true }] }

/-- State with an eligible piece but a hint timestamp 10 seconds in the past
(cooldown blocks the hint). -/
def gCooldown : GameState :=
  { initState with pieces := [dPiece], last_hint_time := some 0 }

/-- `gC` with the level index forced to the last level. -/
def gLast : GameState := { gC with current_level := 7 }

/-- A completed game sitting at the last level with 3 hints used. -/
def gDone : GameState :=
  { gC with puzzle_complete := true, current_level := 7, hints_used := 3 }

/-- A completed game at a non-final level with 3 hints used. -/
def gDoneMid : GameState :=
  { gC with puzzle_complete := true, current_level := 2, hints_used := 3 }

/-! ### The claims -/

/-- C1: Snap invariant — in every state reachable by the operations (load
level, scramble, move piece, hint, advance level), every piece with
`is_placed = true` sits exactly on its target `(correct_x, correct_y)`; and
every operation acting within the current level (move piece, hint, scramble)
leaves every placed piece — position and flags — entirely unchanged. -/
theorem C1_snap_invariant (g : GameState) (hg : Reachable g) :
    SnapInv g ∧ ∀ g' : GameState, StepInLevel g g' → PlacedFrame g g' :=
  ⟨(reachable_inv g hg).1, fun g' h => stepInLevel_placedFrame g g' h⟩

theorem C1_snap_invariant_witness :
    SnapInv gC ∧ PlacedFrame gC (use_hint gC 6 0).1 :=
  ⟨(C1_snap_invariant gC gC_reachable).1,
   (C1_snap_invariant gC gC_reachable).2 _ (StepInLevel.hint gC 6 0)⟩

/-- C2: Completion invariant — in every reachable state `puzzle_complete`
holds iff every piece is placed; moreover for any `move_piece` call, the call
turns the flag from false to true exactly when its response is the
piece-placed-and-puzzle-complete response (checked after every successful
placement). -/
theorem C2_completion_invariant (g : GameState) (hg : Reachable g) :
    (g.puzzle_complete = true ↔ ∀ p ∈ g.pieces, p.is_placed = true) ∧
    ∀ (pid : Nat) (x y now : Int),
      ((∃ s, (move_piece g pid x y now).2 = MoveResp.placedDone s) ↔
        ((move_piece g pid x y now).1.puzzle_complete = true ∧
          g.puzzle_complete = false)) := by
  have hC := (reachable_inv g hg).2
  refine ⟨hC, ?_⟩
  intro pid x y now
  cases hb : (movePiecesAux pid x y g.pieces).2 with
  | false =>
    rw [move_piece_of_noSnap g pid x y now hb]
    constructor
    · rintro ⟨s, hs⟩
      cases hs
    · rintro ⟨h1, h2⟩
      have h1' : g.puzzle_complete = true := h1
      rw [h2] at h1'
      cases h1'
  | true =>
    have hex : ∃ p ∈ g.pieces, p.is_placed = false :=
      movePiecesAux_true_unplaced pid x y g.pieces hb
    have hcmp : g.puzzle_complete = false := by
      cases hgp : g.puzzle_complete with
      | false => rfl
      | true =>
        obtain ⟨p, hp, hpf⟩ := hex
        have := hC.mp hgp p hp
        rw [this] at hpf
        cases hpf
    cases hall : ((movePiecesAux pid x y g.pieces).1.all (fun p => p.is_placed)) with
    | false =>
      rw [move_piece_of_snap_more g pid x y now hb hall]
      constructor
      · rintro ⟨s, hs⟩
        cases hs
      · rintro ⟨h1, h2⟩
        have h1' : g.puzzle_complete = true := h1
        rw [h2] at h1'
        cases h1'
    | true =>
      rw [move_piece_of_snap_done g pid x y now hb hall]
      exact ⟨fun _ => ⟨rfl, hcmp⟩, fun _ => ⟨_, rfl⟩⟩

theorem C2_completion_invariant_witness :
    (gC.puzzle_complete = true ↔ ∀ p ∈ gC.pieces, p.is_placed = true) ∧
    ((∃ s, (move_piece gC 0 60 110 20).2 = MoveResp.placedDone s) ↔
      ((move_piece gC 0 60 110 20).1.puzzle_complete = true ∧
        gC.puzzle_complete = false)) :=
  ⟨(C2_completion_invariant gC gC_reachable).1,
   (C2_completion_invariant gC gC_reachable).2 0 60 110 20⟩

/-- C3: `movePiece` with an unknown piece id, or addressed at an
already-placed piece, is a silent no-op: the state is returned unchanged with
the plain success response (no error). -/
theorem C3_move_noop (g : GameState) (pid : Nat) (x y now : Int)
    (h : ∀ p ∈ g.pieces, p.piece_id = pid → p.is_placed = true) :
    move_piece g pid x y now = (g, MoveResp.ok) := by
  have hnm := movePiecesAux_of_noMatch pid x y g.pieces h
  have hb : (movePiecesAux pid x y g.pieces).2 = false := by rw [hnm]
  rw [move_piece_of_noSnap g pid x y now hb, hnm]

theorem C3_move_noop_witness :
    move_piece gC 99 0 0 7 = (gC, MoveResp.ok) :=
  C3_move_noop gC 99 0 0 7 (by decide)

/-- C4: Scoring — with the level timer set (to a nonzero instant),
`calculate_level_score` equals
`max 50 (basePoints + max 0 (basePoints // 2 - (elapsed // 10)) - 20 * hintsUsed)`
with Python floor division, and is therefore always at least 50. -/
theorem C4_score_formula (g : GameState) (now t : Int)
    (h1 : g.level_start_time = some t) (h2 : t ≠ 0) :
    calculate_level_score g now =
      max 50 ((levels.getD g.current_level dLevel).points
        + max 0 (Int.fdiv (levels.getD g.current_level dLevel).points 2
            - Int.fdiv (now - t) 10)
        - 20 * (g.hints_used : Int)) ∧
    50 ≤ calculate_level_score g now := by
  have hform : calculate_level_score g now =
      max 50 ((levels.getD g.current_level dLevel).points
        + max 0 (Int.fdiv (levels.getD g.current_level dLevel).points 2
            - Int.fdiv (now - t) 10)
        - 20 * (g.hints_used : Int)) := by
    simp only [calculate_level_score, h1, if_neg h2]
    congr 1
    ring
  exact ⟨hform, by rw [hform]; exact le_max_left _ _⟩

theorem C4_score_formula_witness :
    calculate_level_score gC 65 =
      max 50 ((levels.getD gC.current_level dLevel).points
        + max 0 (Int.fdiv (levels.getD gC.current_level dLevel).points 2
            - Int.fdiv (65 - 5) 10)
        - 20 * (gC.hints_used : Int)) ∧
    50 ≤ calculate_level_score gC 65 :=
  C4_score_formula gC 65 5 (by decide) (by decide)

/-- C5: Hint cooldown — a `requestHint` call made less than 2 hours (7200 s)
after a successful one fails and leaves the whole state untouched; a call
with no prior hint timestamp, or made at least 2 hours after the last
successful hint, succeeds whenever an eligible piece exists, and then it
reveals one eligible piece, increments the hint counter and updates the
last-hint timestamp in the same step. -/
theorem C5_hint_cooldown :
    (∀ (g g1 : GameState) (now1 now2 : Int) (k1 k2 : Nat),
      use_hint g now1 k1 = (g1, true) → now2 - now1 < 7200 →
      use_hint g1 now2 k2 = (g1, false)) ∧
    (∀ (g : GameState) (now : Int) (k : Nat),
      (g.last_hint_time = none ∨ ∃ t, g.last_hint_time = some t ∧ 7200 ≤ now - t) →
      eligIdxs g.pieces ≠ [] →
      ∃ j ∈ eligIdxs g.pieces,
        use_hint g now k =
          ({ g with pieces := g.pieces.set j
                      { g.pieces.getD j dPiece with hint_revealed := true },
                    hints_used := g.hints_used + 1,
                    last_hint_time := some now }, true)) := by
  constructor
  · intro g g1 now1 now2 k1 k2 hsucc hlt
    by_cases hc : can_use_hint g now1 = false
    · rw [use_hint_of_blocked g now1 k1 hc] at hsucc
      have : (false : Bool) = true := congrArg Prod.snd hsucc
      cases this
    · by_cases he : eligIdxs g.pieces = []
      · rw [use_hint_of_noElig g now1 k1 he] at hsucc
        have : (false : Bool) = true := congrArg Prod.snd hsucc
        cases this
      · have hc' : can_use_hint g now1 = true := by
          cases h : can_use_hint g now1
          · exact absurd h hc
          · rfl
        rw [use_hint_of_success g now1 k1 hc' he] at hsucc
        have hlast : g1.last_hint_time = some now1 := by
          have h := congrArg (fun q => q.1.last_hint_time) hsucc
          simpa using h.symm
        have hblocked : can_use_hint g1 now2 = false := by
          simp only [can_use_hint, hlast]
          simp only [decide_eq_false_iff_not]
          omega
        exact use_hint_of_blocked g1 now2 k2 hblocked
  · intro g now k hcool helig
    have hc : can_use_hint g now = true := by
      rcases hcool with h | ⟨t, ht, hle⟩
      · simp [can_use_hint, h]
      · simp only [can_use_hint, ht]
        exact decide_eq_true hle
    exact ⟨_, eligIdxs_choice_mem g.pieces k helig,
      use_hint_of_success g now k hc helig⟩

theorem C5_hint_cooldown_witness :
    use_hint (use_hint gC 6 0).1 100 0 = ((use_hint gC 6 0).1, false) ∧
    ∃ j ∈ eligIdxs gC.pieces,
      use_hint gC 6 0 =
        ({ gC with
            pieces := gC.pieces.set j ({ gC.pieces.getD j dPiece with
              hint_revealed := true }),
            hints_used := gC.hints_used + 1,
            last_hint_time := some 6 }, true) :=
  ⟨C5_hint_cooldown.1 gC (use_hint gC 6 0).1 6 100 0 0 (by decide) (by decide),
   C5_hint_cooldown.2 gC 6 0 (Or.inl (by decide)) (by decide)⟩

/-- C9: if the level-start timestamp is unset (`None`) or `0` (Python
truthiness of `if not self.level_start_time`), `calculate_level_score`
returns 0 — below the 50-point floor — without applying the formula. -/
theorem C9_unset_timer (g : GameState) (now : Int)
    (h : g.level_start_time = none ∨ g.level_start_time = some 0) :
    calculate_level_score g now = 0 := by
  rcases h with h | h <;> simp [calculate_level_score, h]

theorem C9_unset_timer_witness :
    calculate_level_score initState 12345 = 0 ∧ calculate_level_score initState 12345 < 50 := by
  have h := C9_unset_timer initState 12345 (Or.inl rfl)
  exact ⟨h, by rw [h]; decide⟩

/-- C6 (counterexample): a hint request failing for lack of an eligible piece
(cooldown elapsed) and one failing because of the cooldown produce the very
same result — `False` from `use_hint`, and the single
`'Hint not available yet!'` failure response from the `/api/use_hint` route —
so the two failure causes are not distinguishable by the caller. -/
theorem C6_counterexample :
    can_use_hint gNoElig 0 = true ∧ eligIdxs gNoElig.pieces = [] ∧
    can_use_hint gCooldown 10 = false ∧ eligIdxs gCooldown.pieces ≠ [] ∧
    use_hint_route gNoElig 0 0 = (gNoElig, HintResp.notAvailable) ∧
    use_hint_route gCooldown 10 0 = (gCooldown, HintResp.notAvailable) ∧
    (use_hint_route gNoElig 0 0).2 = (use_hint_route gCooldown 10 0).2 := by
  decide

/-- C6 (amended): when `requestHint` is called with the cooldown elapsed but
no piece satisfying `not hint_revealed and not is_placed` exists, it fails
with no state change; but this failure is reported with exactly the same
result as a cooldown-blocked failure (the `False`/`'Hint not available
yet!'` response), not with a distinguishable one. -/
theorem C6_hint_failure (g : GameState) (now : Int) (k : Nat)
    (_h1 : can_use_hint g now = true) (h2 : eligIdxs g.pieces = []) :
    use_hint_route g now k = (g, HintResp.notAvailable) ∧
    ∀ (g2 : GameState) (now2 : Int) (k2 : Nat), can_use_hint g2 now2 = false →
      (use_hint_route g2 now2 k2).2 = HintResp.notAvailable := by
  constructor
  · simp [use_hint_route, use_hint_of_noElig g now k h2]
  · intro g2 now2 k2 hb
    simp [use_hint_route, use_hint_of_blocked g2 now2 k2 hb]

theorem C6_hint_failure_witness :
    use_hint_route gNoElig 0 0 = (gNoElig, HintResp.notAvailable) ∧
    (use_hint_route gCooldown 10 0).2 = HintResp.notAvailable :=
  ⟨(C6_hint_failure gNoElig 0 0 (by decide) (by decide)).1,
   (C6_hint_failure gNoElig 0 0 (by decide) (by decide)).2 gCooldown 10 0 (by decide)⟩

/-- C7 (counterexample): the claim that every outcome of the random choices
gives all pieces distinct positions is false.  Load level 0 (6 pieces of
200 × 225) and scramble with a legal outcome — the identity shuffle of the
tray grid (`shuffled0 = basePositions 200 225 6 zeroJit`, where 200, 225 and
6 are precisely the loaded level's piece width, piece height and piece
count) with all jitters 0: clamping to `screen_width - piece_width` sends
tray columns 2 and 3 of each row to the same x, so pieces 2 and 3 both end at
(1000, 100) and the final position list is not duplicate-free. -/
theorem C7_counterexample :
    ((scramble_pieces (load_level_base initState 5 0) shuffled0 zeroJit).pieces.map
        (fun p => (p.x, p.y))).Nodup = false ∧
    ((scramble_pieces (load_level_base initState 5 0) shuffled0 zeroJit).pieces.getD
        2 dPiece).x =
      ((scramble_pieces (load_level_base initState 5 0) shuffled0 zeroJit).pieces.getD
        3 dPiece).x ∧
    ((scramble_pieces (load_level_base initState 5 0) shuffled0 zeroJit).pieces.getD
        2 dPiece).y =
      ((scramble_pieces (load_level_base initState 5 0) shuffled0 zeroJit).pieces.getD
        3 dPiece).y := by
  decide

/-- C7 (amended): for a freshly loaded level and every outcome of the random
choices (any jitters, any permutation of the tray grid as the shuffled
position list), after scrambling every piece lies within the tray/screen
bounds (`x` in `[pieces_area_x - 50, screen_width - piece_width]`, `y` in
`[50, screen_height - piece_height - 100]`) and no piece's position equals
its target position.  Distinctness of the final positions is NOT guaranteed
(see the counterexample: clamping can send different tray slots to the same
point). -/
theorem C7_scramble_bounds (g : GameState) (now : Int) (level_index : Nat)
    (hlt : level_index < levels.length)
    (jit1 jit2 : Nat → Int × Int) (shuffled : List (Int × Int))
    (hperm : shuffled.Perm (basePositions
        (load_level_base g now level_index).piece_width
        (load_level_base g now level_index).piece_height
        (load_level_base g now level_index).pieces.length jit1)) :
    ∀ p ∈ (scramble_pieces (load_level_base g now level_index) shuffled jit2).pieces,
      pieces_area_x - 50 ≤ p.x ∧ p.x ≤ screen_width - p.width ∧
      50 ≤ p.y ∧ p.y ≤ screen_height - p.height - 100 ∧
      ¬(p.x = p.correct_x ∧ p.y = p.correct_y) := by
  intro p hp
  have h8 : level_index < 8 := by rw [levels_length] at hlt; exact hlt
  have hfacts := piecesFor_facts level_index h8
  have hlen : (piecesFor level_index).length ≤ shuffled.length := by
    rw [hperm.length_eq, load_level_base_pieces]
    exact le_basePositions_length _ _ _ _
  have hall : ∀ q ∈ piecesFor level_index, q.is_placed = false :=
    fun q hq => (hfacts.2 q hq).1
  have hp' : p ∈ scrambleList shuffled jit2 0 (piecesFor level_index) := hp
  obtain ⟨q, hq, m, hm⟩ :=
    scrambleList_covered shuffled jit2 0 (piecesFor level_index) hall
      (by simpa using hlen) p hp'
  subst hm
  obtain ⟨-, -, hw1, hw2, hh, hcx⟩ := hfacts.2 q hq
  exact scrambleOne_bounds q _ _ hw1 hw2 hh hcx

theorem C7_scramble_bounds_witness :
    pieces_area_x - 50 ≤ (gC.pieces.getD 0 dPiece).x ∧
    (gC.pieces.getD 0 dPiece).x ≤ screen_width - (gC.pieces.getD 0 dPiece).width ∧
    50 ≤ (gC.pieces.getD 0 dPiece).y ∧
    (gC.pieces.getD 0 dPiece).y ≤
      screen_height - (gC.pieces.getD 0 dPiece).height - 100 ∧
    ¬((gC.pieces.getD 0 dPiece).x = (gC.pieces.getD 0 dPiece).correct_x ∧
      (gC.pieces.getD 0 dPiece).y = (gC.pieces.getD 0 dPiece).correct_y) :=
  C7_scramble_bounds initState 5 0 (by decide) zeroJit zeroJit shuffled0
    (List.Perm.refl _) (gC.pieces.getD 0 dPiece) (by decide)

/-- C8: `next_level` at the last level index is a no-op returning `False`
(level index, hint counter, score and pieces all unchanged — indeed the whole
state); below the last index it returns `True`, increments the level index by
one, resets the hint counter to 0, and reloads: fresh scrambled pieces, all
unplaced, completion flag cleared, level timer reset to the call instant. -/
theorem C8_advance_level :
    (∀ (g : GameState) (shuffled : List (Int × Int)) (jit2 : Nat → Int × Int)
      (now : Int), g.current_level = levels.length - 1 →
      next_level g shuffled jit2 now = (g, false)) ∧
    (∀ (g : GameState) (shuffled : List (Int × Int)) (jit2 : Nat → Int × Int)
      (now : Int), g.current_level < levels.length - 1 →
      (next_level g shuffled jit2 now).2 = true ∧
      (next_level g shuffled jit2 now).1.current_level = g.current_level + 1 ∧
      (next_level g shuffled jit2 now).1.hints_used = 0 ∧
      (next_level g shuffled jit2 now).1.puzzle_complete = false ∧
      (next_level g shuffled jit2 now).1.level_start_time = some now ∧
      (next_level g shuffled jit2 now).1.total_score = g.total_score ∧
      (next_level g shuffled jit2 now).1.pieces =
        scrambleList shuffled jit2 0 (piecesFor (g.current_level + 1)) ∧
      ∀ p ∈ (next_level g shuffled jit2 now).1.pieces, p.is_placed = false) := by
  constructor
  · intro g s j now h
    exact next_level_at_last g s j now (by rw [h]; exact lt_irrefl _)
  · intro g s j now h
    rw [next_level_advance g s j now h]
    refine ⟨rfl, rfl, rfl, rfl, rfl, rfl, rfl, ?_⟩
    exact scrambled_piecesFor_unplaced s j _ (by rw [levels_length] at h; omega)

theorem C8_advance_level_witness :
    next_level gLast shuffled0 zeroJit 9 = (gLast, false) ∧
    (next_level gC shuffled0 zeroJit 9).2 = true ∧
    (next_level gC shuffled0 zeroJit 9).1.current_level = gC.current_level + 1 ∧
    (next_level gC shuffled0 zeroJit 9).1.hints_used = 0 ∧
    (next_level gC shuffled0 zeroJit 9).1.puzzle_complete = false :=
  ⟨C8_advance_level.1 gLast shuffled0 zeroJit 9 (by decide),
   (C8_advance_level.2 gC shuffled0 zeroJit 9 (by decide)).1,
   (C8_advance_level.2 gC shuffled0 zeroJit 9 (by decide)).2.1,
   (C8_advance_level.2 gC shuffled0 zeroJit 9 (by decide)).2.2.1,
   (C8_advance_level.2 gC shuffled0 zeroJit 9 (by decide)).2.2.2.1⟩

/-- C10: the `/api/next_level` route with the puzzle complete: at the last
level index it restarts at level 0 with a fresh, all-unplaced piece set but
does NOT reset `hints_used` (the counter keeps its prior value); at a
non-final level it delegates to `next_level`, which does reset `hints_used`
to 0. -/
theorem C10_restart_hints :
    (∀ (g : GameState) (shuffled : List (Int × Int)) (jit2 : Nat → Int × Int)
      (now : Int), g.puzzle_complete = true → g.current_level = levels.length - 1 →
      (next_level_route g shuffled jit2 now).2 = true ∧
      (next_level_route g shuffled jit2 now).1.current_level = 0 ∧
      (next_level_route g shuffled jit2 now).1.hints_used = g.hints_used ∧
      (next_level_route g shuffled jit2 now).1.pieces =
        scrambleList shuffled jit2 0 (piecesFor 0) ∧
      ∀ p ∈ (next_level_route g shuffled jit2 now).1.pieces, p.is_placed = false) ∧
    (∀ (g : GameState) (shuffled : List (Int × Int)) (jit2 : Nat → Int × Int)
      (now : Int), g.puzzle_complete = true → g.current_level < levels.length - 1 →
      (next_level_route g shuffled jit2 now).1.hints_used = 0) := by
  constructor
  · intro g s j now hcmp hlast
    have hroute : next_level_route g s j now =
        ((load_level { g with current_level := 0 } s j now 0).1, true) := by
      rw [next_level_route, if_pos hcmp, if_neg (by rw [hlast]; exact lt_irrefl _)]
    rw [hroute, load_level_of_success _ s j now 0 (by rw [levels_length]; omega)]
    refine ⟨rfl, rfl, rfl, rfl, ?_⟩
    exact scrambled_piecesFor_unplaced s j 0 (by omega)
  · intro g s j now hcmp hlt
    have hroute : next_level_route g s j now = ((next_level g s j now).1, true) := by
      rw [next_level_route, if_pos hcmp, if_pos hlt]
    rw [hroute, next_level_advance g s j now hlt]
    rfl

theorem C10_restart_hints_witness :
    (next_level_route gDone shuffled0 zeroJit 9).1.current_level = 0 ∧
    (next_level_route gDone shuffled0 zeroJit 9).1.hints_used = gDone.hints_used ∧
    (next_level_route gDoneMid shuffled0 zeroJit 9).1.hints_used = 0 :=
  ⟨(C10_restart_hints.1 gDone shuffled0 zeroJit 9 rfl (by decide)).2.1,
   (C10_restart_hints.1 gDone shuffled0 zeroJit 9 rfl (by decide)).2.2.1,
   C10_restart_hints.2 gDoneMid shuffled0 zeroJit 9 rfl (by decide)⟩
